import Mathlib

/-!
Shallow embedding of the core of the codebase-genius repository
(src/BE/python_helpers/repo_utils.py and src/BE/python_helpers/parser_utilis.py)
together with theorems checking the natural-language specification against it.

Python text is modelled as `List Char`, raw bytes as `List Nat`, machine-level
regular-expression matching for the three concrete patterns used by the source
is implemented directly (the patterns are deterministic: every character class
involved is disjoint from its successor, so greedy maximal munch coincides with
the backtracking semantics of Python's `re`).  Inputs in this development are
ASCII, and the whitespace class is the ASCII portion of Python's `\s`.
-/

/-! ## Character classes used by the source's regular expressions -/

/-- ASCII portion of Python's `\s` class: space, tab, newline, CR, VT, FF. -/
def isWsChar (c : Char) : Bool :=
  c == ' ' || c == '\t' || c == '\n' || c == '\r' || c == '\x0b' || c == '\x0c'

/-- The class `[A-Za-z0-9_]` of the source's identifier captures. -/
def isIdentChar (c : Char) : Bool :=
  c.isAlpha || c.isDigit || c == '_'

/-- The class `[A-Za-z_]` that opens the call pattern. -/
def isIdentStartChar (c : Char) : Bool :=
  c.isAlpha || c == '_'

/-- Length of the maximal whitespace prefix (greedy `\s*`). -/
def wsSpan : List Char → Nat
  | c :: r => if isWsChar c then wsSpan r + 1 else 0
  | [] => 0

/-- Length of the maximal identifier-character prefix (greedy `[A-Za-z0-9_]*`). -/
def identSpan : List Char → Nat
  | c :: r => if isIdentChar c then identSpan r + 1 else 0
  | [] => 0

/-- Number of newline characters in a character list;
`text[:start].count("\n")` in the source is `countNl (text.take start)`. -/
def countNl (s : List Char) : Nat :=
  (s.filter (fun c => c == '\n')).length

/-! ## The three regular expressions of `parse_with_treesitter`

Each matcher tries the pattern at the head of the given suffix and returns
`some (length of the whole match, captured identifier)` on success.  The `^`
anchor of the two declaration patterns is handled by the scanner. -/

/-- Body of `re.compile(r'^\s*def\s+([A-Za-z0-9_]+)\s*\(', re.MULTILINE)`
tried at one position (the `^` anchor is checked by the caller). -/
def matchFuncAt (s : List Char) : Option (Nat × String) :=
  let w0 := wsSpan s
  match s.drop w0 with
  | 'd' :: 'e' :: 'f' :: s2 =>
    let w1 := wsSpan s2
    if w1 == 0 then none
    else
      let s3 := s2.drop w1
      let idn := identSpan s3
      if idn == 0 then none
      else
        let s4 := s3.drop idn
        let w2 := wsSpan s4
        match s4.drop w2 with
        | '(' :: _ => some (w0 + 3 + w1 + idn + w2 + 1, String.mk (s3.take idn))
        | _ => none
  | _ => none

/-- Body of `re.compile(r'^\s*class\s+([A-Za-z0-9_]+)\s*[\(:]?', re.MULTILINE)`
tried at one position (the `^` anchor is checked by the caller). -/
def matchClassDeclAt (s : List Char) : Option (Nat × String) :=
  let w0 := wsSpan s
  match s.drop w0 with
  | 'c' :: 'l' :: 'a' :: 's' :: 's' :: s2 =>
    let w1 := wsSpan s2
    if w1 == 0 then none
    else
      let s3 := s2.drop w1
      let idn := identSpan s3
      if idn == 0 then none
      else
        let s4 := s3.drop idn
        let w2 := wsSpan s4
        let base := w0 + 5 + w1 + idn + w2
        match s4.drop w2 with
        | '(' :: _ => some (base + 1, String.mk (s3.take idn))
        | ':' :: _ => some (base + 1, String.mk (s3.take idn))
        | _ => some (base, String.mk (s3.take idn))
  | _ => none

/-- Body of `re.compile(r'([A-Za-z_][A-Za-z0-9_]*)\s*\(', re.MULTILINE)`
tried at one position (this pattern has no anchor). -/
def matchCallAt (s : List Char) : Option (Nat × String) :=
  match s with
  | [] => none
  | c :: rest =>
    if isIdentStartChar c then
      let idn := identSpan rest
      let s2 := rest.drop idn
      let w := wsSpan s2
      match s2.drop w with
      | '(' :: _ => some (1 + idn + w + 1, String.mk (c :: rest.take idn))
      | _ => none
    else none

/-- `re.finditer`: leftmost, non-overlapping matches, resuming after each
match; `anchored` models a `^` at the head of the pattern under
`re.MULTILINE` (a try is allowed only at the start of the text or right after
a newline).  Returns `(start position, captured identifier)` pairs.  `fuel`
only serves termination; `text.length + 1` is always enough. -/
def scanRe (m : List Char → Option (Nat × String)) (anchored : Bool) :
    Nat → Nat → List Char → Bool → List (Nat × String)
  | 0, _, _, _ => []
  | Nat.succ fuel, pos, s, atStart =>
    match (if anchored && !atStart then none else m s) with
    | some (len, nm) =>
      (pos, nm) :: scanRe m anchored fuel (pos + len) (s.drop len)
        ((s.take len).getLast? == some '\n')
    | none =>
      match s with
      | [] => []
      | c :: rest => scanRe m anchored fuel (pos + 1) rest (c == '\n')

/-- All matches of the function-declaration pattern, in source order. -/
def reFindFunc (text : List Char) : List (Nat × String) :=
  scanRe matchFuncAt true (text.length + 1) 0 text true

/-- All matches of the class-declaration pattern, in source order. -/
def reFindClassDecl (text : List Char) : List (Nat × String) :=
  scanRe matchClassDeclAt true (text.length + 1) 0 text true

/-- All matches of the call pattern, in source order. -/
def reFindCall (text : List Char) : List (Nat × String) :=
  scanRe matchCallAt false (text.length + 1) 0 text true

/-! ## Lossy UTF-8 decoding, `content.decode('utf-8', errors='ignore')` -/

/-- A UTF-8 continuation byte. -/
def isContByte (b : Nat) : Bool := 0x80 ≤ b && b ≤ 0xBF

/-- Decode one code point starting at byte `b0`; returns the decoded
character (or `none` for an invalid sequence, which `errors='ignore'`
drops) and how many further bytes were consumed. -/
def utf8Step (b0 : Nat) (rest : List Nat) : Option Char × Nat :=
  if b0 < 0x80 then (some (Char.ofNat b0), 0)
  else if b0 < 0xC2 then (none, 0)
  else if b0 ≤ 0xDF then
    match rest with
    | b1 :: _ =>
      if isContByte b1 then
        (some (Char.ofNat ((b0 - 0xC0) * 0x40 + (b1 - 0x80))), 1)
      else (none, 0)
    | [] => (none, 0)
  else if b0 ≤ 0xEF then
    let lo1 := if b0 == 0xE0 then 0xA0 else 0x80
    let hi1 := if b0 == 0xED then 0x9F else 0xBF
    match rest with
    | b1 :: rest1 =>
      if lo1 ≤ b1 && b1 ≤ hi1 then
        match rest1 with
        | b2 :: _ =>
          if isContByte b2 then
            (some (Char.ofNat ((b0 - 0xE0) * 0x1000 + (b1 - 0x80) * 0x40 + (b2 - 0x80))), 2)
          else (none, 1)
        | [] => (none, 1)
      else (none, 0)
    | [] => (none, 0)
  else if b0 ≤ 0xF4 then
    let lo1 := if b0 == 0xF0 then 0x90 else 0x80
    let hi1 := if b0 == 0xF4 then 0x8F else 0xBF
    match rest with
    | b1 :: rest1 =>
      if lo1 ≤ b1 && b1 ≤ hi1 then
        match rest1 with
        | b2 :: rest2 =>
          if isContByte b2 then
            match rest2 with
            | b3 :: _ =>
              if isContByte b3 then
                (some (Char.ofNat ((b0 - 0xF0) * 0x40000 + (b1 - 0x80) * 0x1000
                  + (b2 - 0x80) * 0x40 + (b3 - 0x80))), 3)
              else (none, 2)
            | [] => (none, 2)
          else (none, 1)
        | [] => (none, 1)
      else (none, 0)
    | [] => (none, 0)
  else (none, 0)

/-- Worker for `decodeUtf8Ignore`; `fuel` only serves termination, one unit
per consumed lead byte, so `length + 1` is always enough. -/
def decodeUtf8Go : Nat → List Nat → List Char
  | 0, _ => []
  | _, [] => []
  | Nat.succ fuel, b0 :: rest =>
    let p := utf8Step b0 rest
    match p.1 with
    | some c => c :: decodeUtf8Go fuel (rest.drop p.2)
    | none => decodeUtf8Go fuel (rest.drop p.2)

/-- `bytes.decode('utf-8', errors='ignore')`: total, never fails; invalid
sequences are dropped (consuming their maximal valid subpart). -/
def decodeUtf8Ignore (bs : List Nat) : List Char :=
  decodeUtf8Go (bs.length + 1) bs

/-- Byte encoding of an ASCII string, for feeding concrete files to the
analyzer. -/
def asciiBytes (s : String) : List Nat :=
  s.data.map Char.toNat

/-! ## Data model of `parse_with_treesitter`'s result -/

/-- One entry of the `symbols` list: `{"type": ..., "name": ..., "lineno": ...}`. -/
structure PySymbol where
  type : String
  name : String
  lineno : Nat
deriving DecidableEq

/-- One entry of the `calls` list: `{"call": ..., "lineno": ...}`. -/
structure PyCall where
  call : String
  lineno : Nat
deriving DecidableEq

/-- The `summary` dict. -/
structure PySummary where
  file : String
  lang : String
  num_symbols : Nat
  num_calls : Nat
  top_symbols : List PySymbol
deriving DecidableEq

/-- Result dict of `parse_with_treesitter`: either
`{"ok": False, "error": ...}` or `{"ok": True, "symbols": ..., "calls": ...,
"summary": ...}`. -/
inductive ParseResult where
  | err (error : String)
  | ok (symbols : List PySymbol) (calls : List PyCall) (summary : PySummary)
deriving DecidableEq

/-- Symbols of a result (`[]` on the error shape). -/
def ParseResult.symbolsOf : ParseResult → List PySymbol
  | .err _ => []
  | .ok sy _ _ => sy

/-- Calls of a result (`[]` on the error shape). -/
def ParseResult.callsOf : ParseResult → List PyCall
  | .err _ => []
  | .ok _ cs _ => cs

/-- `os.path.basename` for a POSIX path: the part after the last slash. -/
def pyBasename (p : String) : String :=
  String.mk ((p.data.reverse.takeWhile (fun c => c != '/')).reverse)

/-- The extension part of `os.path.splitext(p)[1].lower()`: starts at the
last dot of the basename unless the basename, up to there, is all dots. -/
def splitextExtLower (p : String) : String :=
  let b := (pyBasename p).data
  let afterRev := b.reverse.takeWhile (fun c => c != '.')
  if afterRev.length == b.length then ""
  else
    let stem := b.take (b.length - afterRev.length - 1)
    if stem.any (fun c => c != '.') then
      String.mk (('.' :: afterRev.reverse).map Char.toLower)
    else ""

/-- `parse_with_treesitter(file_path)` from parser_utilis.py.  `content`
models the result of `_read_file_bytes(file_path)`: `none` when the read
raised (the function then returns the error shape), otherwise the raw
bytes. -/
def parse_with_treesitter (file_path : String) (content : Option (List Nat)) :
    ParseResult :=
  match content with
  | none => ParseResult.err "cannot read file"
  | some bytes =>
    let ext := splitextExtLower file_path
    let text := decodeUtf8Ignore bytes
    let symbols :=
      (reFindFunc text).map (fun p =>
        { type := "function", name := p.2, lineno := countNl (text.take p.1) + 1 })
      ++ (reFindClassDecl text).map (fun p =>
        { type := "class", name := p.2, lineno := countNl (text.take p.1) + 1 })
    let calls := (reFindCall text).map (fun p =>
      { call := p.2, lineno := countNl (text.take p.1) + 1 })
    let lang := String.mk (ext.data.filter (fun c => c != '.'))
    let summary : PySummary :=
      { file := pyBasename file_path
        lang := if lang == "" then "txt" else lang
        num_symbols := symbols.length
        num_calls := calls.length
        top_symbols := symbols.take 10 }
    ParseResult.ok symbols calls summary

example :
    parse_with_treesitter "a.py"
      (some (asciiBytes "def foo(x):\n    pass\n\nclass Bar:\n    pass\n")) =
    ParseResult.ok
      [⟨"function", "foo", 1⟩, ⟨"class", "Bar", 3⟩]
      [⟨"foo", 1⟩]
      ⟨"a.py", "py", 2, 1, [⟨"function", "foo", 1⟩, ⟨"class", "Bar", 3⟩]⟩ := by
  decide

/-! ## repo_utils.py: file-tree walker, README resolver, repository acquirer -/

/-- Outcome of a Python call: a returned value or a raised exception. -/
inductive PyResult (α : Type) where
  | ok (v : α)
  | exn (msg : String)
deriving DecidableEq

/-- A directory: named subdirectories and file names, the view `os.walk`
traverses. -/
inductive FSTree where
  | node (dirs : List (String × FSTree)) (files : List String)

/-- The ignore set of `generate_file_tree`. -/
def ignoreDirs : List String :=
  [".git", "node_modules", "__pycache__", ".venv", ".env"]

/-- `os.path.realpath(root, path)`: `realpath` accepts a single positional
argument in every Python 3 version, so this call raises `TypeError`. -/
def realpath2 (_root _path : String) : PyResult String :=
  PyResult.exn "realpath() takes 1 positional argument but 2 were given"

mutual

/-- Body of the `os.walk` loop of `generate_file_tree` at one directory:
prune ignored subdirectory names, compute `rel_root`, collect non-hidden
files, then descend.  The `realpath` call raises, and the exception
propagates. -/
def walkBody (base rel : String) : FSTree → PyResult (List String)
  | FSTree.node dirs files =>
    match realpath2 rel base with
    | PyResult.exn m => PyResult.exn m
    | PyResult.ok rp =>
      let rel_root := if rp == "." then "" else rp
      let here := (files.filter (fun f => !(f.startsWith "."))).map
        (fun f => if rel_root == "" then f else rel_root ++ "/" ++ f)
      match walkList base rel dirs with
      | PyResult.exn m => PyResult.exn m
      | PyResult.ok sub => PyResult.ok (here ++ sub)

/-- Descend into the surviving subdirectories (the `dirs[:] = ...` prune of
the source keeps exactly the names outside `ignoreDirs`). -/
def walkList (base rel : String) : List (String × FSTree) → PyResult (List String)
  | [] => PyResult.ok []
  | (n, t) :: rest =>
    if n ∈ ignoreDirs then walkList base rel rest
    else
      match walkBody base (rel ++ "/" ++ n) t with
      | PyResult.exn m => PyResult.exn m
      | PyResult.ok l1 =>
        match walkList base rel rest with
        | PyResult.exn m => PyResult.exn m
        | PyResult.ok l2 => PyResult.ok (l1 ++ l2)

end

/-- Stable insertion of a string into a sorted list (`sorted` is stable and
compares strings lexicographically by code point, as Lean's `≤` does). -/
def insertLe (x : String) : List String → List String
  | [] => [x]
  | y :: r => if x ≤ y then x :: y :: r else y :: insertLe x r

/-- Python's `sorted` on a list of strings. -/
def pySorted : List String → List String
  | [] => []
  | x :: r => insertLe x (pySorted r)

/-- `generate_file_tree(path)` from repo_utils.py.  `root` models the
directory the path points at: `none` when the path does not exist (then
`os.walk` yields nothing and the result is `sorted([]) = []`). -/
def generate_file_tree (path : String) (root : Option FSTree) :
    PyResult (List String) :=
  match root with
  | none => PyResult.ok []
  | some t =>
    match walkBody path path t with
    | PyResult.exn m => PyResult.exn m
    | PyResult.ok l => PyResult.ok (pySorted l)

/-- The candidate list of `read_readme`, in order. -/
def readmeCandidates : List String :=
  ["README.md", "readme.md", "README.rst", "README"]

/-- A directory's README view: maps a candidate file name to `none` (does
not exist), `some none` (exists but `open`/`read` raises, e.g. the bytes do
not decode as UTF-8), or `some (some t)` (exists with text `t`). -/
def ReadmeFs : Type := String → Option (Option String)

/-- The candidate loop of `read_readme`. -/
def readmeLoop (fs : ReadmeFs) : List String → String
  | [] => ""
  | c :: rest =>
    match fs c with
    | some (some t) => t
    | some none => ""
    | none => readmeLoop fs rest

/-- `read_readme(path)` from repo_utils.py: first existing candidate's text,
`""` when reading it raises, and also `""` when no candidate exists. -/
def read_readme (fs : ReadmeFs) : String :=
  readmeLoop fs readmeCandidates

/-- `resolveReadme` as the specification words it: an optional result that
is `none` when no candidate exists, and otherwise the first existing
candidate's text (empty string when decoding fails). -/
def resolveReadmeSpec (fs : ReadmeFs) : Option String :=
  match readmeCandidates.find? (fun c => (fs c).isSome) with
  | none => none
  | some c =>
    match fs c with
    | some (some t) => some t
    | _ => some ""

/-- `url.rstrip("/")`: strip trailing slashes. -/
def pyRstripSlashes (s : String) : String :=
  String.mk ((s.data.reverse.dropWhile (fun c => c == '/')).reverse)

/-- `str.replace(".git", "")`: remove every non-overlapping occurrence of
`.git`, scanning left to right. -/
def removeDotGitAll : List Char → List Char
  | '.' :: 'g' :: 'i' :: 't' :: rest => removeDotGitAll rest
  | c :: rest => c :: removeDotGitAll rest
  | [] => []

/-- Line 17 of repo_utils.py:
`os.path.basename(url.rstrip("/")).replace(".git", "")`. -/
def derive_name (url : String) : String :=
  String.mk (removeDotGitAll (pyBasename (pyRstripSlashes url)).data)

/-- The repository name as the claim states it: the last path segment after
removing trailing slashes, with only a trailing `.git` suffix stripped. -/
def specRepoName (url : String) : String :=
  let seg := pyBasename (pyRstripSlashes url)
  if seg.data.reverse.take 4 == ['t', 'i', 'g', '.'] then
    String.mk (seg.data.take (seg.data.length - 4))
  else seg

/-- `str.strip()` on the captured stderr: remove leading and trailing
whitespace. -/
def pyStrip (s : String) : String :=
  String.mk (((s.data.dropWhile isWsChar).reverse.dropWhile isWsChar).reverse)

/-- Outcome of `subprocess.run(["git", "clone", ...], timeout=180)`:
either the process completed with an exit code and captured stderr, or
`TimeoutExpired` was raised. -/
inductive GitOutcome where
  | completed (returncode : Nat) (stderr : String)
  | timedOut

/-- Environment of one `clone_repo` call: whether `mkdtemp` raises, the
temporary path it would create, the fetch outcome, the tree the clone
leaves in the temporary directory when git exits 0, and that directory's
README view. -/
structure CloneWorld where
  mkdtempFails : Bool
  tmpPath : String
  git : GitOutcome
  clonedTree : FSTree
  readmeFs : ReadmeFs

/-- The dict `clone_repo` returns. -/
structure CloneRet where
  ok : Bool
  error : Option String
  path : Option String
  name : Option String
  file_tree : Option (List String)
  readme : Option String

/-- `clone_repo(url)` from repo_utils.py.  The second component of the
result records whether the temporary directory still exists after the call
returns: `shutil.rmtree` runs only in the non-zero-exit branch, so a raised
exception (timeout, or the `TypeError` out of `generate_file_tree`) reaches
the `except` block with the directory still in place. -/
def clone_repo (url : String) (w : CloneWorld) : CloneRet × Bool :=
  if w.mkdtempFails then
    -- tempfile.mkdtemp raised; no directory was created
    ({ ok := false, error := some "[Errno 28] No space left on device",
       path := none, name := none, file_tree := none, readme := none }, false)
  else
    match w.git with
    | GitOutcome.timedOut =>
      -- subprocess.TimeoutExpired propagates to the except block; the
      -- handler returns without removing the directory
      ({ ok := false,
         error := some "Command git clone timed out after 180 seconds",
         path := none, name := none, file_tree := none, readme := none }, true)
    | GitOutcome.completed rc stderr =>
      if rc != 0 then
        -- shutil.rmtree(tmp, ignore_errors=True); directory removed
        ({ ok := false, error := some (pyStrip stderr),
           path := none, name := none, file_tree := none, readme := none }, false)
      else
        let name := derive_name url
        match generate_file_tree w.tmpPath (some w.clonedTree) with
        | PyResult.exn m =>
          -- the TypeError is caught by the except block; no cleanup there
          ({ ok := false, error := some m,
             path := none, name := none, file_tree := none, readme := none }, true)
        | PyResult.ok ft =>
          let readme := read_readme w.readmeFs
          ({ ok := true, error := none, path := some w.tmpPath,
             name := some name, file_tree := some ft, readme := some readme }, true)

/-! ## Snippet extractor, parser_utilis.py lines 59-67 -/

/-- Python slice bound normalization for a list of length `len`. -/
def pyBound (len : Nat) (i : Int) : Nat :=
  min ((if i < 0 then i + len else i).toNat) len

/-- `ls[a:b]` for Python integers `a`, `b`. -/
def pySlice (ls : List String) (a b : Int) : List String :=
  let s := pyBound ls.length a
  let e := pyBound ls.length b
  (ls.drop s).take (e - s)

/-- `extract_code_snippet(file_path, lineno, context)`.  `lines` models the
result of `fh.readlines()` (each entry keeps its trailing terminator);
`none` means `open`/`read`/decoding raised, in which case the function
returns `""`. -/
def extract_code_snippet (lines : Option (List String)) (lineno context : Int) :
    String :=
  match lines with
  | none => ""
  | some ls =>
    let start := max 0 (lineno - context - 1)
    let stop := min (ls.length : Int) (lineno + context)
    String.join (pySlice ls start stop)

/-- The snippet window exactly as the specification words it: the 0-indexed
half-open window `[max(0, L - C - 1), min(totalLines, L + C))`. -/
def specWindow (ls : List String) (lineno context : Int) : List String :=
  let lo := (max 0 (lineno - context - 1)).toNat
  let hi := (min (ls.length : Int) (lineno + context)).toNat
  (ls.drop lo).take (hi - lo)

/-! ## Helper lemmas -/

theorem join_singleton (s : String) : String.join [s] = s := by
  cases s with
  | mk data => rfl

/-- Every identifier a `scanRe` run reports was captured by a successful
run of the matcher on some suffix. -/
theorem scanRe_mem_match (m : List Char → Option (Nat × String)) (anchored : Bool) :
    ∀ (fuel pos : Nat) (s : List Char) (atStart : Bool) (p : Nat × String),
      p ∈ scanRe m anchored fuel pos s atStart →
      ∃ t len, m t = some (len, p.2) := by
  intro fuel
  induction fuel with
  | zero =>
    intro pos s atStart p h
    simp [scanRe] at h
  | succ n ih =>
    intro pos s atStart p h
    simp only [scanRe] at h
    split at h
    next len nm heq =>
      rcases List.mem_cons.mp h with rfl | h2
      · by_cases hb : (anchored && !atStart) = true
        · rw [if_pos hb] at heq; cases heq
        · rw [if_neg hb] at heq
          exact ⟨s, len, heq⟩
      · exact ih _ _ _ _ h2
    next heq =>
      cases s with
      | nil => simp at h
      | cons c rest => exact ih _ _ _ _ h

/-- A successful call-pattern match captures a name whose first character
is in `[A-Za-z_]`. -/
theorem matchCallAt_starts_ident (s : List Char) (len : Nat) (nm : String)
    (h : matchCallAt s = some (len, nm)) :
    ∃ c rest, nm.data = c :: rest ∧ isIdentStartChar c = true := by
  cases s with
  | nil => simp [matchCallAt] at h
  | cons c rest =>
    simp only [matchCallAt] at h
    split at h
    next hc =>
      split at h
      next heq =>
        simp only [Option.some.injEq, Prod.mk.injEq] at h
        exact ⟨c, rest.take (identSpan rest), by rw [← h.2], hc⟩
      next heq => cases h
    next hc => cases h

/-! ## C8, C9, C10: the structural analyzer -/

/-- C8: `analyze` returns `{success:false, error:"cannot read file"}` exactly
when reading the file's bytes fails, and for every readable file it returns
`success:true` regardless of content (decoding is lossy and total, so it
never causes failure). -/
theorem parse_err_iff_read_fails :
    ∀ (fp : String) (content : Option (List Nat)),
      ((∃ e, parse_with_treesitter fp content = ParseResult.err e) ↔ content = none)
      ∧ (content = none →
          parse_with_treesitter fp content = ParseResult.err "cannot read file")
      ∧ (∀ bs, content = some bs →
          ∃ sy cs su, parse_with_treesitter fp content = ParseResult.ok sy cs su) := by
  intro fp content
  cases content with
  | none =>
    exact ⟨⟨fun _ => rfl, fun _ => ⟨"cannot read file", rfl⟩⟩,
      fun _ => rfl, fun bs h => by cases h⟩
  | some bs =>
    refine ⟨⟨?_, ?_⟩, ?_, ?_⟩
    · rintro ⟨e, he⟩
      simp [parse_with_treesitter] at he
    · intro h; cases h
    · intro h; cases h
    · intro bs' _
      exact ⟨_, _, _, rfl⟩

theorem parse_err_iff_read_fails_witness :
    ((∃ e, parse_with_treesitter "f.py" none = ParseResult.err e)
        ↔ (none : Option (List Nat)) = none)
    ∧ ((none : Option (List Nat)) = none →
        parse_with_treesitter "f.py" none = ParseResult.err "cannot read file")
    ∧ (∀ bs, (none : Option (List Nat)) = some bs →
        ∃ sy cs su, parse_with_treesitter "f.py" none = ParseResult.ok sy cs su) :=
  parse_err_iff_read_fails "f.py" none

/-- C9: in every successful result of `analyze`, `symbolCount` is the length
of the symbols sequence, `callCount` the length of the calls sequence, and
`topSymbols` the first `min(10, length)` entries of symbols in order. -/
theorem parse_summary_consistent :
    ∀ (fp : String) (content : Option (List Nat)) (sy : List PySymbol)
      (cs : List PyCall) (su : PySummary),
      parse_with_treesitter fp content = ParseResult.ok sy cs su →
      su.num_symbols = sy.length ∧ su.num_calls = cs.length
        ∧ su.top_symbols = sy.take 10 := by
  intro fp content sy cs su h
  cases content with
  | none => exact absurd h (by simp [parse_with_treesitter])
  | some bs =>
    simp only [parse_with_treesitter, ParseResult.ok.injEq] at h
    obtain ⟨h1, h2, h3⟩ := h
    subst h1; subst h2; subst h3
    exact ⟨rfl, rfl, rfl⟩

theorem parse_summary_consistent_witness :
    (⟨"f.py", "py", 1, 1, [⟨"function", "a", 1⟩]⟩ : PySummary).num_symbols
        = [(⟨"function", "a", 1⟩ : PySymbol)].length
    ∧ (⟨"f.py", "py", 1, 1, [⟨"function", "a", 1⟩]⟩ : PySummary).num_calls
        = [(⟨"a", 1⟩ : PyCall)].length
    ∧ (⟨"f.py", "py", 1, 1, [⟨"function", "a", 1⟩]⟩ : PySummary).top_symbols
        = [(⟨"function", "a", 1⟩ : PySymbol)].take 10 :=
  parse_summary_consistent "f.py" (some (asciiBytes "def a():\n"))
    [⟨"function", "a", 1⟩] [⟨"a", 1⟩] ⟨"f.py", "py", 1, 1, [⟨"function", "a", 1⟩]⟩
    (by decide)

/-- The ten decimal digit characters. -/
def digitChars : List Char := ['0', '1', '2', '3', '4', '5', '6', '7', '8', '9']

/-- C10: the fallback function-declaration pattern accepts names beginning
with a digit (the file `def 0name(x):` yields a Function symbol named
`0name`), while call-site extraction never produces a calleeName starting
with a digit. -/
theorem parse_digit_function_name_but_no_digit_call :
    ((parse_with_treesitter "g.py" (some (asciiBytes "def 0name(x):\n"))).symbolsOf
        = [⟨"function", "0name", 1⟩]
      ∧ "0name".data.head? = some '0' ∧ '0' ∈ digitChars)
    ∧ (∀ (fp : String) (content : Option (List Nat)) (sy : List PySymbol)
        (cs : List PyCall) (su : PySummary),
        parse_with_treesitter fp content = ParseResult.ok sy cs su →
        ∀ pc ∈ cs, ∃ c rest, pc.call.data = c :: rest ∧ c ∉ digitChars) := by
  constructor
  · exact ⟨by decide, by decide, by decide⟩
  · intro fp content sy cs su h pc hpc
    cases content with
    | none => exact absurd h (by simp [parse_with_treesitter])
    | some bs =>
      simp only [parse_with_treesitter, ParseResult.ok.injEq] at h
      obtain ⟨-, h2, -⟩ := h
      subst h2
      rcases List.mem_map.mp hpc with ⟨p, hpmem, rfl⟩
      obtain ⟨t, len, hm⟩ := scanRe_mem_match matchCallAt false _ _ _ _ _ hpmem
      obtain ⟨c, rest, hdata, hstart⟩ := matchCallAt_starts_ident t len p.2 hm
      refine ⟨c, rest, hdata, ?_⟩
      intro hd
      simp only [digitChars, List.mem_cons, List.not_mem_nil, or_false] at hd
      rcases hd with rfl | rfl | rfl | rfl | rfl | rfl | rfl | rfl | rfl | rfl <;>
        exact absurd hstart (by decide)

theorem parse_digit_function_name_but_no_digit_call_witness :
    ∃ c rest, (⟨"name", 1⟩ : PyCall).call.data = c :: rest ∧ c ∉ digitChars :=
  parse_digit_function_name_but_no_digit_call.2 "g.py"
    (some (asciiBytes "def 0name(x):\n"))
    [⟨"function", "0name", 1⟩] [⟨"name", 1⟩]
    ⟨"g.py", "py", 1, 1, [⟨"function", "0name", 1⟩]⟩
    (by decide) ⟨"name", 1⟩ (by decide)

/-! ## C5: kind-then-order symbol listing and scenario A -/

/-- The byte content of the specification's concrete scenario A. -/
def scenarioABytes : List Nat :=
  asciiBytes "def foo(x):\n    pass\n\nclass Bar:\n    pass\n"

/-- The symbols sequence as the specification words it: every
function-declaration match in source order, then every class-declaration
match in source order, each with lineNumber equal to 1 plus the number of
newline characters preceding the match start. -/
def specSymbolsOf (text : List Char) : List PySymbol :=
  (reFindFunc text).map (fun p => ⟨"function", p.2, countNl (text.take p.1) + 1⟩)
  ++ (reFindClassDecl text).map (fun p => ⟨"class", p.2, countNl (text.take p.1) + 1⟩)

/-- C5 counterexample: on scenario A's file the claimed symbol list
`[{Function, foo, 1}, {Class, Bar, 4}]` is wrong — the class pattern's
leading `^\s*` consumes the blank line before `class Bar:`, so the match
starts on line 3 and the recorded lineNumber is 3, not 4. -/
theorem parse_scenarioA_class_at_line_three :
    (parse_with_treesitter "a.py" (some scenarioABytes)).symbolsOf
      ≠ [⟨"function", "foo", 1⟩, ⟨"class", "Bar", 4⟩] := by
  decide

/-- C5 (amended): symbols list all function-declaration matches in source
order followed by all class-declaration matches in source order, with
lineNumber 1 plus the newline count before the match start; scenario A's
file yields symbols `[{Function, foo, 1}, {Class, Bar, 3}]` and calls
including `{foo, 1}`. -/
theorem parse_symbols_kind_then_order :
    (∀ (fp : String) (bs : List Nat) (sy : List PySymbol) (cs : List PyCall)
        (su : PySummary),
        parse_with_treesitter fp (some bs) = ParseResult.ok sy cs su →
        sy = specSymbolsOf (decodeUtf8Ignore bs))
    ∧ (parse_with_treesitter "a.py" (some scenarioABytes)).symbolsOf
        = [⟨"function", "foo", 1⟩, ⟨"class", "Bar", 3⟩]
    ∧ (⟨"foo", 1⟩ : PyCall) ∈ (parse_with_treesitter "a.py" (some scenarioABytes)).callsOf := by
  refine ⟨?_, by decide, by decide⟩
  intro fp bs sy cs su h
  simp only [parse_with_treesitter, ParseResult.ok.injEq] at h
  obtain ⟨h1, -, -⟩ := h
  rw [← h1]
  rfl

theorem parse_symbols_kind_then_order_witness :
    ([⟨"function", "a", 1⟩] : List PySymbol)
      = specSymbolsOf (decodeUtf8Ignore (asciiBytes "def a():\n")) :=
  parse_symbols_kind_then_order.1 "w.py" (asciiBytes "def a():\n")
    [⟨"function", "a", 1⟩] [⟨"a", 1⟩] ⟨"w.py", "py", 1, 1, [⟨"function", "a", 1⟩]⟩
    (by decide)

/-! ## C4: repository-name derivation -/

/-- C4 counterexample: `str.replace(".git", "")` removes every occurrence
of `.git`, not only a trailing suffix, so for the segment `my.github.git`
the code produces `myhub` where the claim demands `my.github`. -/
theorem derive_name_strips_interior_git :
    derive_name "https://example.com/my.github.git" = "myhub"
    ∧ specRepoName "https://example.com/my.github.git" = "my.github"
    ∧ derive_name "https://example.com/my.github.git"
        ≠ specRepoName "https://example.com/my.github.git" := by
  exact ⟨by decide, by decide, by decide⟩

/-- C4 (amended): `repositoryName` is the URL's last path segment after
removing trailing slashes, with every occurrence of the substring `.git`
removed (not only a trailing suffix): `my.github.git → myhub`,
`repo.git → repo`, `repo.git/ → repo`, `my.gitrepo → myrepo`. -/
theorem derive_name_removes_every_dot_git :
    derive_name "https://example.com/my.github.git" = "myhub"
    ∧ derive_name "https://example.com/repo.git" = "repo"
    ∧ derive_name "https://example.com/repo.git/" = "repo"
    ∧ derive_name "https://example.com/my.gitrepo" = "myrepo" := by
  exact ⟨by decide, by decide, by decide, by decide⟩

/-! ## C7: README resolution -/

/-- A directory with no README candidate at all. -/
def noReadmeFs : ReadmeFs := fun _ => none

/-- A directory whose only candidate is a `README.md` with empty text. -/
def emptyReadmeFs : ReadmeFs :=
  fun c => if c == "README.md" then some (some "") else none

/-- C7 counterexample: when no candidate exists, `read_readme` returns the
plain string `""` — the very value a present-but-empty (or undecodable)
README also produces — not an absent result distinct from a string, as the
claim states and as the spec-worded optional resolver would. -/
theorem read_readme_absent_not_distinct :
    read_readme noReadmeFs = ""
    ∧ read_readme noReadmeFs = read_readme emptyReadmeFs
    ∧ resolveReadmeSpec noReadmeFs = none
    ∧ resolveReadmeSpec emptyReadmeFs = some "" := by
  exact ⟨by decide, by decide, by decide, by decide⟩

/-- The candidate loop returns what the first existing candidate holds. -/
theorem readmeLoop_eq_find (fs : ReadmeFs) :
    ∀ l : List String,
      readmeLoop fs l =
        (match l.find? (fun c => (fs c).isSome) with
         | none => ""
         | some c =>
           match fs c with
           | some (some t) => t
           | _ => "") := by
  intro l
  induction l with
  | nil => rfl
  | cons c rest ih =>
    cases hfc : fs c with
    | none =>
      rw [readmeLoop, hfc, List.find?_cons_of_neg]
      · exact ih
      · simp [hfc]
    | some o =>
      rw [readmeLoop, hfc, List.find?_cons_of_pos]
      · cases o <;> simp [hfc]
      · simp [hfc]

/-- C7 (amended): `read_readme` checks the fixed ordered candidate list and
returns the first existing candidate's full text (empty string when reading
or decoding fails); when none of the candidates exist it returns the empty
string — the collapse of the spec-worded optional resolver's `none` onto
`""`, not a distinct absent value. -/
theorem read_readme_refines_optional_spec :
    ∀ fs : ReadmeFs, read_readme fs = (resolveReadmeSpec fs).getD "" := by
  intro fs
  unfold read_readme resolveReadmeSpec
  rw [readmeLoop_eq_find]
  cases hf : readmeCandidates.find? (fun c => (fs c).isSome) with
  | none => rfl
  | some c =>
    cases hfc : fs c with
    | none => simp [hfc]
    | some o => cases o <;> simp [hfc]

/-! ## C2, C3: the file-tree walker raises on every existing root -/

/-- C2: the claim says `walk` returns normally on every existing root with
no internal fault escaping; in fact the loop body calls `os.path.realpath`
with two positional arguments (where `os.path.relpath` was evidently
intended), so a `TypeError` is raised at the very first directory `os.walk`
yields and propagates to the caller, for every existing root. -/
theorem generate_file_tree_raises_on_existing_root :
    ∀ (base : String) (t : FSTree),
      generate_file_tree base (some t)
        = PyResult.exn "realpath() takes 1 positional argument but 2 were given" := by
  intro base t
  cases t with
  | node dirs files => simp [generate_file_tree, walkBody, realpath2]

/-- A concrete repository tree: an ignored directory, a hidden file, a
normal source file — everything the walker's invariants are about. -/
def sampleTree : FSTree :=
  FSTree.node
    [(".git", FSTree.node [] ["config"]), ("srcdir", FSTree.node [] ["m.py"])]
    ["README.md", ".hidden"]

/-- C3: the claim quantifies over the sequence `walk(T)` returns; on this
(and every) existing tree the function returns no sequence at all — the
`TypeError` from the two-argument `realpath` call escapes before any entry
is collected, so the sorted/duplicate-free/filtered output the claim (and
the code's own prune/skip/sort steps) promise is never produced. -/
theorem generate_file_tree_no_output_on_sample_tree :
    generate_file_tree "/tmp/repo_xyz" (some sampleTree)
      = PyResult.exn "realpath() takes 1 positional argument but 2 were given" := by
  simp [sampleTree, generate_file_tree, walkBody, realpath2]

/-! ## C1: failed acquisitions and the temporary directory -/

/-- A clone attempt whose `git clone` hits the 180 s timeout. -/
def timeoutWorld : CloneWorld :=
  { mkdtempFails := false, tmpPath := "/tmp/repo_abc123",
    git := GitOutcome.timedOut,
    clonedTree := FSTree.node [] [], readmeFs := fun _ => none }

/-- A clone attempt where `git clone` exits 0 and populates the directory. -/
def clonedWorld : CloneWorld :=
  { mkdtempFails := false, tmpPath := "/tmp/repo_abc124",
    git := GitOutcome.completed 0 "",
    clonedTree := FSTree.node [] ["main.py"], readmeFs := fun _ => none }

/-- C1: the claim says every failing acquisition leaves no residual
temporary directory; in fact `shutil.rmtree` runs only in the non-zero-exit
branch, so when the failure is a raised exception — the fetch timeout, or
the `TypeError` that `generate_file_tree` raises right after a successful
clone — the `except` handler returns `{ok: false, ...}` with the `mkdtemp`
directory still on disk (second component `true`). -/
theorem clone_repo_failure_leaves_tmpdir :
    ((clone_repo "https://example.com/org/myrepo.git" timeoutWorld).1.ok = false
      ∧ (clone_repo "https://example.com/org/myrepo.git" timeoutWorld).2 = true)
    ∧ ((clone_repo "https://example.com/org/myrepo.git" clonedWorld).1.ok = false
      ∧ (clone_repo "https://example.com/org/myrepo.git" clonedWorld).2 = true) := by
  refine ⟨⟨rfl, rfl⟩, ?_, ?_⟩ <;>
    simp [clone_repo, clonedWorld, generate_file_tree, walkBody, realpath2]

/-! ## C6: the snippet window -/

theorem pySlice_eq_window (ls : List String) (a b : Int)
    (ha : 0 ≤ a) (hb0 : 0 ≤ b) (hb : b ≤ (ls.length : Int)) :
    pySlice ls a b = (ls.drop a.toNat).take (b.toNat - a.toNat) := by
  unfold pySlice pyBound
  have h1 : ¬ a < 0 := by omega
  have h2 : ¬ b < 0 := by omega
  simp only [if_neg h1, if_neg h2]
  have hb' : min b.toNat ls.length = b.toNat := by omega
  rw [hb']
  rcases le_or_lt a.toNat ls.length with h | h
  · rw [min_eq_left h]
  · have e1 : ls.drop (min a.toNat ls.length) = [] :=
      List.drop_eq_nil_of_le (by omega)
    have e2 : ls.drop a.toNat = [] :=
      List.drop_eq_nil_of_le (by omega)
    rw [e1, e2]
    simp

/-- C6: for positive `L` and non-negative `C`, `extract_code_snippet`
returns the concatenation (with original terminators) of the 0-indexed
lines in the half-open window `[max(0, L - C - 1), min(totalLines, L + C))`;
with `C = 0` it returns exactly line `L`'s content (or `""` out of range),
and the window never holds more than `2C + 1` lines. -/
theorem extract_code_snippet_window (ls : List String) (L C : Int)
    (hL : 0 < L) (hC : 0 ≤ C) :
    extract_code_snippet (some ls) L C = String.join (specWindow ls L C)
    ∧ extract_code_snippet (some ls) L 0 = ls.getD (L - 1).toNat ""
    ∧ ((specWindow ls L C).length : Int) ≤ 2 * C + 1 := by
  have hmain : ∀ D : Int, 0 ≤ D →
      extract_code_snippet (some ls) L D = String.join (specWindow ls L D) := by
    intro D hD
    show String.join
        (pySlice ls (max 0 (L - D - 1)) (min (ls.length : Int) (L + D)))
      = String.join (specWindow ls L D)
    rw [pySlice_eq_window ls _ _ (le_max_left 0 _) (by omega) (by omega)]
    rfl
  refine ⟨hmain C hC, ?_, ?_⟩
  · rw [hmain 0 le_rfl]
    simp only [specWindow]
    rcases le_or_lt L (ls.length : Int) with h | h
    · have hlo : (max 0 (L - 0 - 1)).toNat = (L - 1).toNat := by omega
      have hhi : (min (ls.length : Int) (L + 0)).toNat = L.toNat := by omega
      rw [hlo, hhi]
      have hcount : L.toNat - (L - 1).toNat = 1 := by omega
      rw [hcount]
      have hidx : (L - 1).toNat < ls.length := by omega
      rw [List.drop_eq_getElem_cons hidx, List.take_succ_cons, List.take_zero,
        join_singleton, List.getD_eq_getElem ls "" hidx]
    · have e1 : ls.drop (max 0 (L - 0 - 1)).toNat = [] :=
        List.drop_eq_nil_of_le (by omega)
      rw [e1, List.take_nil]
      rw [List.getD_eq_default ls "" (by omega)]
      rfl
  · simp only [specWindow, List.length_take, List.length_drop]
    omega

theorem extract_code_snippet_window_witness :
    extract_code_snippet (some ["a\n", "b\n", "c\n"]) 2 1
        = String.join (specWindow ["a\n", "b\n", "c\n"] 2 1)
    ∧ extract_code_snippet (some ["a\n", "b\n", "c\n"]) 2 0
        = ["a\n", "b\n", "c\n"].getD ((2 : Int) - 1).toNat ""
    ∧ ((specWindow ["a\n", "b\n", "c\n"] 2 1).length : Int) ≤ 2 * 1 + 1 :=
  extract_code_snippet_window ["a\n", "b\n", "c\n"] 2 1 (by decide) (by decide)

theorem generate_file_tree_raises_on_existing_root_witness :
    generate_file_tree "/tmp/repo_w" (some (FSTree.node [] []))
      = PyResult.exn "realpath() takes 1 positional argument but 2 were given" :=
  generate_file_tree_raises_on_existing_root "/tmp/repo_w" (FSTree.node [] [])

theorem read_readme_refines_optional_spec_witness :
    read_readme noReadmeFs = (resolveReadmeSpec noReadmeFs).getD "" :=
  read_readme_refines_optional_spec noReadmeFs
